import Mathlib

/-!
Verification development for the `hataraku` agent library
(repository `turlockmike/cline-cli`).

Strings of the TypeScript source are modelled as `List Char` (`Str`), so
that splitting, trimming and scanning can be reasoned about by structural
induction.  JavaScript numbers that the program only uses at integral
values (section `order` fields) are modelled as `Int`.
-/

/-- JavaScript strings, modelled as lists of characters. -/
abbrev Str := List Char

/-- Whitespace characters removed by `String.prototype.trim` (the forms the
repository's section contents actually contain). -/
def isWS (c : Char) : Bool :=
  c = ' ' || c = '\t' || c = '\n' || c = '\r'

/-- `String.prototype.trim`: drop whitespace from both ends. -/
def jsTrim (s : Str) : Str :=
  ((s.dropWhile isWS).reverse.dropWhile isWS).reverse

/-- `Array.prototype.join(sep)`: concatenate with `sep` between elements. -/
def joinSep (sep : Str) : List Str → Str
  | [] => []
  | [x] => x
  | x :: y :: ys => x ++ sep ++ joinSep sep (y :: ys)

/-- `String.prototype.split(sep)` for a single-character separator. -/
def splitOnChar (sep : Char) : Str → List Str
  | [] => [[]]
  | c :: rest =>
    match splitOnChar sep rest with
    | [] => [[]]
    | w :: ws => if c = sep then [] :: w :: ws else (c :: w) :: ws

/-!
## SystemPromptBuilder

Translated from `src/prompts/system-prompt-builder` (file
`src/unnamed/part_002`): `SystemPromptSection`, `getDefaultOrder`,
`formatSectionName`, `initialize`, `addSection`, `disableSection`,
`enableSection` and `build`.

The contents of the default sections are produced by section modules
(`getRoleSection`, `getSystemInfoSection`, …) that are not part of the
provided sources; they are treated as an opaque assignment
`contents : Str → Str` of a content string to each default section name.
The builder's `sections` JavaScript `Map` is modelled as a list of
sections in insertion order, with `Map.get`/`Map.set` semantics
(`mapGet`/`mapSet`): setting an existing key updates the value in place,
setting a new key appends.
-/

/-- `SystemPromptSection` from the source. -/
structure SystemPromptSection where
  name : Str
  content : Str
  order : Int
  enabled : Bool
deriving DecidableEq, Repr

/-- The comparator `(a, b) => a.order - b.order` used by `build` and
`initialize`, as the ordering relation it induces. -/
def secLe (a b : SystemPromptSection) : Prop := a.order ≤ b.order

instance : DecidableRel secLe := fun a b => inferInstanceAs (Decidable (a.order ≤ b.order))

instance : IsTotal SystemPromptSection secLe := ⟨fun a b => Int.le_total a.order b.order⟩

instance : IsTrans SystemPromptSection secLe := ⟨fun _ _ _ hab hbc => le_trans hab hbc⟩

/-- `JavaScript Array.prototype.sort` on sections by ascending `order`
(stable, per the ECMAScript specification); modelled by stable insertion
sort. -/
def sortByOrder (l : List SystemPromptSection) : List SystemPromptSection :=
  List.insertionSort secLe l

/-- `formatSectionName`: split on `-`, uppercase every word, join with
spaces. -/
def formatSectionName (name : Str) : Str :=
  joinSep [' '] ((splitOnChar '-' name).map (List.map Char.toUpper))

/-- The separator `\n\n====\n\n` between rendered sections in `build`. -/
def buildSeparator : Str := '\n' :: '\n' :: '=' :: '=' :: '=' :: '=' :: '\n' :: '\n' :: []

/-- The blank line between a section's display name and its content. -/
def sectionGap : Str := '\n' :: '\n' :: []

/-- The rendering of one enabled section inside `build`. -/
def renderSection (s : SystemPromptSection) : Str :=
  formatSectionName s.name ++ sectionGap ++ jsTrim s.content

/-- `SystemPromptBuilder.build`. -/
def build (sections : List SystemPromptSection) : Str :=
  if (sortByOrder (sections.filter (·.enabled))).length = 0 then []
  else joinSep buildSeparator ((sortByOrder (sections.filter (·.enabled))).map renderSection)

/-- `Map.prototype.get` keyed by section name. -/
def mapGet : List SystemPromptSection → Str → Option SystemPromptSection
  | [], _ => none
  | x :: xs, n => if x.name = n then some x else mapGet xs n

/-- `Map.prototype.set` keyed by section name: update in place if the key
exists, append otherwise. -/
def mapSet : List SystemPromptSection → SystemPromptSection → List SystemPromptSection
  | [], s => [s]
  | x :: xs, s => if x.name = s.name then s :: xs else x :: mapSet xs s

/-- The insertion order of the builder's `defaultSections` map in the
constructor. -/
def defaultNames : List Str :=
  [ "role".toList, "system-info".toList, "tool-use".toList,
    "tool-use-guidelines".toList, "schema-validation".toList,
    "rules".toList, "custom-instructions".toList, "objective".toList ]

/-- `getDefaultOrder`: the `orderMap` lookup with fallback `100`
(`orderMap[sectionName] || 100`; no order value in the map is `0`). -/
def getDefaultOrder (name : Str) : Int :=
  if name = "role".toList then 10
  else if name = "system-info".toList then 20
  else if name = "tool-use".toList then 30
  else if name = "tool-use-guidelines".toList then 40
  else if name = "schema-validation".toList then 50
  else if name = "rules".toList then 60
  else if name = "objective".toList then 70
  else if name = "custom-instructions".toList then 80
  else 100

/-- The configuration fields of `SystemPromptConfig` that `initialize`
reads.  `ciProvided` stands for `config.sections?.customInstructions`
being present; the string it would produce through
`getCustomInstructionsSection` is `contents "custom-instructions"`, the
same value stored in the `defaultSections` map by the constructor (both
sites call the same pure function on the same argument). -/
structure BuilderConfig where
  customSections : List SystemPromptSection
  disabledSections : List Str
  ciProvided : Bool

/-- One step of `initialize`'s first loop over the default section names. -/
def initStep (disabled : List Str) (contents : Str → Str)
    (l : List SystemPromptSection) (n : Str) : List SystemPromptSection :=
  if n ∈ disabled then l else mapSet l ⟨n, contents n, getDefaultOrder n, true⟩

/-- One step of `initialize`'s loop over `customSections`. -/
def customStep (disabled : List Str)
    (l : List SystemPromptSection) (s : SystemPromptSection) : List SystemPromptSection :=
  if s.name ∈ disabled then l else mapSet l { s with enabled := true }

/-- The default section names sorted by `getDefaultOrder`
(`Array.from(keys).sort((a, b) => order(a) - order(b))`). -/
def sortedDefaultNames : List Str :=
  List.insertionSort (fun a b => getDefaultOrder a ≤ getDefaultOrder b) defaultNames

/-- `SystemPromptBuilder.initialize` (run by the constructor): default
sections in order, then custom sections, then the custom-instructions
block. -/
def initSections (contents : Str → Str) (cfg : BuilderConfig) : List SystemPromptSection :=
  let l1 := sortedDefaultNames.foldl (initStep cfg.disabledSections contents) []
  let l2 := cfg.customSections.foldl (customStep cfg.disabledSections) l1
  if cfg.ciProvided ∧ contents ("custom-instructions".toList) ≠ []
      ∧ "custom-instructions".toList ∉ cfg.disabledSections then
    mapSet l2 ⟨"custom-instructions".toList, contents ("custom-instructions".toList),
      getDefaultOrder ("custom-instructions".toList), true⟩
  else l2

/-- `SystemPromptBuilder.disableSection`. -/
def disableSection (name : Str) (l : List SystemPromptSection) : List SystemPromptSection :=
  match mapGet l name with
  | some s => mapSet l { s with enabled := false }
  | none => l

/-- `SystemPromptBuilder.enableSection`: a default name is re-added with
fresh default content and order; otherwise an existing custom section is
re-enabled. -/
def enableSection (contents : Str → Str) (name : Str)
    (l : List SystemPromptSection) : List SystemPromptSection :=
  if name ∈ defaultNames then
    mapSet l ⟨name, contents name, getDefaultOrder name, true⟩
  else
    match mapGet l name with
    | some s => mapSet l { s with enabled := true }
    | none => l

/-!
## MistralProvider.getModel

Translated from `src/api/providers/mistral.ts` (file
`src/unnamed/part_001`, lines 59-69).  The `mistralModels` table and
`mistralDefaultModelId` live in `src/shared/api`, which is not among the
provided sources; they are modelled below as a concrete association list
whose keys are non-empty model-id strings containing the default id.
-/

/-- The fields of `ModelInfo` relevant to the embedding. -/
structure ModelInfo where
  maxTokens : Int
  contextWindow : Int
  supportsPromptCache : Bool
deriving DecidableEq, Repr

/-- Modelled from the spec: `mistralDefaultModelId` is declared in
`src/shared/api`, which is not among the provided sources; the Codestral
default of the Mistral provider is used. -/
def mistralDefaultModelId : String := "codestral-latest"

/-- Modelled from the spec: the `mistralModels` table is declared in
`src/shared/api`, which is not among the provided sources; it is modelled
as an association list from non-empty model-id keys to `ModelInfo`,
containing the default model id. -/
def mistralModels : List (String × ModelInfo) :=
  [ ("codestral-latest", ⟨256000, 256000, false⟩),
    ("codestral-2501", ⟨256000, 256000, false⟩) ]

/-- The `ModelInfo` of the default Mistral model. -/
def mistralDefaultInfo : ModelInfo :=
  ((mistralModels.lookup mistralDefaultModelId).getD ⟨0, 0, false⟩)

/-- The field of `ModelProviderOptions` read by `MistralProvider.getModel`. -/
structure ModelProviderOptions where
  apiModelId : Option String
deriving DecidableEq, Repr

/-- `MistralProvider.getModel`: `if (modelId && modelId in mistralModels)`
return the pair for `modelId`, otherwise the default pair.  JavaScript
string truthiness makes the guard require a non-empty id. -/
def mistralGetModel (opts : ModelProviderOptions) : String × ModelInfo :=
  match opts.apiModelId with
  | some modelId =>
    if modelId ≠ "" ∧ (mistralModels.lookup modelId).isSome then
      (modelId, (mistralModels.lookup modelId).getD mistralDefaultInfo)
    else
      (mistralDefaultModelId, mistralDefaultInfo)
  | none => (mistralDefaultModelId, mistralDefaultInfo)

/-!
## Agent, Thread, Response Parser

The implementations (`src/core/agent`, `src/core/thread`, the response
parser) are not among the provided sources — only their tests
(`src/src/core/agent/__tests__/agent.test.ts`), type declarations
(`src/unnamed/part_004`) and callers are.  They are modelled from the
spec (sections 3, 4.1-4.3 and 7) below, with the marker wire format
(`<attempt_completion>…</attempt_completion>`, `<tool>…</tool>`,
`<task>…</task>`) taken from the in-repo tests.
-/

/-- `MessageRole` from `src/unnamed/part_004`. -/
inductive Role where
  | user
  | assistant
deriving DecidableEq, Repr

/-- `Message` from `src/unnamed/part_004`. -/
structure Message where
  role : Role
  content : Str
deriving DecidableEq, Repr

/-- Modelled from the spec: the Thread implementation
(`src/core/thread/thread.ts`) is not among the provided sources.  An
ordered message log plus a keyed context store (section 3). -/
structure Thread where
  messages : List Message
  contexts : List (Str × Str)
deriving DecidableEq, Repr

/-- The empty Thread (`new Thread()`). -/
def Thread.empty : Thread := ⟨[], []⟩

/-- Modelled from the spec: `Thread.appendMessage` appends to the ordered
message log. -/
def Thread.appendMessage (t : Thread) (m : Message) : Thread :=
  { t with messages := t.messages ++ [m] }

/-- Modelled from the spec: `Thread.addContext` inserts or overwrites the
entry for a key (most recent write wins per key). -/
def Thread.addContext (t : Thread) (key value : Str) : Thread :=
  if (t.contexts.map Prod.fst).contains key then
    { t with contexts := t.contexts.map (fun p => if p.1 = key then (key, value) else p) }
  else
    { t with contexts := t.contexts ++ [(key, value)] }

/-- Whether `pat` is an initial segment of `s`. -/
def startsWith : Str → Str → Bool
  | [], _ => true
  | _ :: _, [] => false
  | p :: ps, c :: cs => p = c && startsWith ps cs

/-- Scan `s` for the first occurrence of `pat`; return the text before it
and the text after it. -/
def splitAtSub (pat : Str) : Str → Option (Str × Str)
  | [] => if startsWith pat [] then some ([], []) else none
  | c :: rest =>
    if startsWith pat (c :: rest) then some ([], (c :: rest).drop pat.length)
    else (splitAtSub pat rest).map (fun p => (c :: p.1, p.2))

/-- Whether `pat` occurs anywhere in `s`. -/
def containsSub (pat s : Str) : Bool :=
  (splitAtSub pat s).isSome

/-- The opening completion marker. -/
def completionOpen : Str := "<attempt_completion>".toList

/-- The closing completion marker. -/
def completionClose : Str := "</attempt_completion>".toList

/-- Modelled from the spec: the response parser is not among the provided
sources.  The text inside the first terminated completion-marker block,
if any (section 4.2: first completion marker wins, an unterminated marker
is treated as absent). -/
def completionOf (s : Str) : Option Str :=
  match splitAtSub completionOpen s with
  | none => none
  | some (_, rest) =>
    match splitAtSub completionClose rest with
    | none => none
    | some (inner, _) => some inner

/-- The opening tag of a tool-invocation marker. -/
def openTag (t : Str) : Str := '<' :: t ++ ['>']

/-- The closing tag of a tool-invocation marker. -/
def closeTag (t : Str) : Str := '<' :: '/' :: (t ++ ['>'])

/-- Modelled from the spec: the response parser is not among the provided
sources.  The tool invocations of the registered tools found in a
response, as (tool name, raw inner text) pairs. -/
def extractToolCalls (tools : List Str) (s : Str) : List (Str × Str) :=
  tools.filterMap fun t =>
    match splitAtSub (openTag t) s with
    | none => none
    | some (_, rest) =>
      match splitAtSub (closeTag t) rest with
      | none => none
      | some (inner, _) => some (t, inner)

/-!
## Structured output (JSON subset and output schemas)

Modelled from the spec, section 4.3 step 5: on terminal completion with a
supplied output schema, the raw result is parsed as structured data
(`JSON.parse`) and validated against the schema (`zod`).  The JSON
fragment actually exercised by the repository's schema tests — flat
objects with string and integer-number fields — is embedded.
-/

/-- A JSON value of the embedded fragment. -/
inductive JValue where
  | jstr (s : Str)
  | jnum (n : Int)
deriving DecidableEq, Repr

/-- A JSON object of the embedded fragment. -/
abbrev JObject := List (Str × JValue)

/-- Drop leading JSON whitespace. -/
def skipWS (s : Str) : Str := s.dropWhile isWS

/-- Parse a JSON string literal (no escape sequences): the text between a
pair of double quotes, plus the remainder. -/
def parseStringLit : Str → Option (Str × Str)
  | '"' :: rest =>
    match rest.dropWhile (· ≠ '"') with
    | '"' :: more => some (rest.takeWhile (· ≠ '"'), more)
    | _ => none
  | _ => none

/-- Accumulate a run of decimal digits. -/
def parseNatDigits : Str → Nat → Nat × Str
  | c :: rest, acc =>
    if c.isDigit then parseNatDigits rest (10 * acc + (c.toNat - '0'.toNat))
    else (acc, c :: rest)
  | [], acc => (acc, [])

/-- Parse a JSON integer literal (optional minus sign, decimal digits). -/
def parseIntLit : Str → Option (Int × Str)
  | '-' :: c :: rest =>
    if c.isDigit then
      some (-(Int.ofNat (parseNatDigits (c :: rest) 0).1), (parseNatDigits (c :: rest) 0).2)
    else none
  | c :: rest =>
    if c.isDigit then
      some (Int.ofNat (parseNatDigits (c :: rest) 0).1, (parseNatDigits (c :: rest) 0).2)
    else none
  | [] => none

/-- Parse a JSON value of the embedded fragment. -/
def parseJValue (s : Str) : Option (JValue × Str) :=
  match s with
  | '"' :: _ => (parseStringLit s).map fun p => (JValue.jstr p.1, p.2)
  | _ => (parseIntLit s).map fun p => (JValue.jnum p.1, p.2)

/-- Parse the `"key": value` fields of an object body up to and including
the closing brace; `fuel` bounds the number of fields. -/
def parseJFields : Nat → Str → Option (JObject × Str)
  | 0, _ => none
  | fuel + 1, s =>
    match parseStringLit (skipWS s) with
    | none => none
    | some (key, r1) =>
      match skipWS r1 with
      | ':' :: r2 =>
        match parseJValue (skipWS r2) with
        | none => none
        | some (v, r3) =>
          match skipWS r3 with
          | ',' :: r4 => (parseJFields fuel r4).map fun p => ((key, v) :: p.1, p.2)
          | '\x7d' :: r4 => some ([(key, v)], r4)
          | _ => none
      | _ => none

/-- `JSON.parse` on the embedded fragment: a single flat object consuming
the whole input up to surrounding whitespace. -/
def jsonParse (s : Str) : Option JObject :=
  match skipWS s with
  | '\x7b' :: r1 =>
    match skipWS r1 with
    | '\x7d' :: r2 => if skipWS r2 = [] then some [] else none
    | _ =>
      match parseJFields s.length r1 with
      | some (obj, rest) => if skipWS rest = [] then some obj else none
      | none => none
  | _ => none

/-- A field type of an output schema (the `z.string()` / `z.number()`
shapes used by the repository). -/
inductive SchemaTy where
  | sstr
  | snum
deriving DecidableEq, Repr

/-- An output schema: a flat `z.object` of named typed fields. -/
structure OutputSchema where
  fields : List (Str × SchemaTy)
deriving DecidableEq, Repr

/-- Whether a JSON value has a schema field type. -/
def tyMatches : SchemaTy → JValue → Bool
  | .sstr, .jstr _ => true
  | .snum, .jnum _ => true
  | .sstr, .jnum _ => false
  | .snum, .jstr _ => false

/-- Modelled from the spec: schema validation of a parsed completion
payload — every declared field must be present with the declared type. -/
def validateSchema (sch : OutputSchema) (obj : JObject) : Bool :=
  sch.fields.all fun p =>
    match obj.lookup p.1 with
    | some v => tyMatches p.2 v
    | none => false

/-- The inline rendering of an output schema inside the task message. -/
def renderSchema (sch : OutputSchema) : Str :=
  joinSep (", ".toList) (sch.fields.map fun p =>
    p.1 ++ (": ".toList) ++
      (match p.2 with
       | .sstr => "string".toList
       | .snum => "number".toList))

/-!
## Agent state and task loop
-/

/-- The fields of `UnifiedTool` (from `src/unnamed/part_004`) the
embedding needs: the name and whether the optional setup hook
(`initialize?`) is present. -/
structure UnifiedTool where
  name : Str
  hasInitHook : Bool
deriving DecidableEq, Repr

/-- The per-Agent state touched by `Agent.initialize`: the once-only
guard flag and the (multiset of) setup hooks run so far. -/
structure AgentState where
  toolsLoaded : Bool
  initHookRuns : List Str
deriving DecidableEq, Repr

/-- The Agent state fresh from the constructor. -/
def freshAgent : AgentState := ⟨false, []⟩

/-- The number of occurrences of a string in a list of strings. -/
def countOcc (a : Str) (l : List Str) : Nat :=
  l.countP (fun x => decide (x = a))

/-- Modelled from the spec: `Agent.initialize` (source not among the
provided files) runs each tool's optional setup hook exactly once across
the Agent's lifetime and is a no-op once the agent is initialized
(section 4.3). -/
def initAgent (tools : List UnifiedTool) (st : AgentState) : AgentState :=
  if st.toolsLoaded then st
  else ⟨true, st.initHookRuns ++ (tools.filter (·.hasInitHook)).map (·.name)⟩

/-- `n` repeated `Agent.initialize` calls. -/
def iterInitAgent (tools : List UnifiedTool) : Nat → AgentState → AgentState
  | 0, st => st
  | n + 1, st => iterInitAgent tools n (initAgent tools st)

/-- One scripted reply of the Model Provider: either the full response
text of a turn, or a raised error. -/
inductive ProviderEvent where
  | text (s : Str)
  | err (e : Str)
deriving DecidableEq, Repr

/-- The terminal failure kinds of a task (spec section 7). -/
inductive TaskError where
  | StreamingSchemaUnsupported
  | NoCompletionFound
  | SchemaValidationFailed
  | TurnBudgetExceeded
  | ProviderError (e : Str)
deriving DecidableEq, Repr

/-- The user-visible message of each failure kind (from the in-repo tests
where available). -/
def errorMessage : TaskError → Str
  | .StreamingSchemaUnsupported =>
      "Output schemas are not supported with streaming responses".toList
  | .NoCompletionFound =>
      "No attempt_completion with result tag found in response".toList
  | .SchemaValidationFailed =>
      "Failed to parse response with schema".toList
  | .TurnBudgetExceeded =>
      "Maximum number of turns exceeded".toList
  | .ProviderError e => e

/-- A successful task result: plain completion text, or the parsed
structured object when an output schema was supplied. -/
inductive TaskContent where
  | text (s : Str)
  | json (j : JObject)
deriving DecidableEq, Repr

deriving instance DecidableEq for Except

/-- The observable outcome of one `task()` call: the settled result, the
final Thread, and the message history sent at each Model Provider call. -/
structure TaskOutcome where
  result : Except TaskError TaskContent
  thread : Thread
  calls : List (List Message)
deriving DecidableEq, Repr

/-- The rendering of a Thread's context store as a preamble message. -/
def renderContexts (ctxs : List (Str × Str)) : Str :=
  joinSep ("\n".toList) (ctxs.map fun p => p.1 ++ (": ".toList) ++ p.2)

/-- The preamble messages for a context store: one user message when the
store is non-empty (the in-repo tests observe one extra leading message
containing the context keys). -/
def preambleOf (ctxs : List (Str × Str)) : List Message :=
  if ctxs.isEmpty then []
  else [⟨Role.user, "<context>".toList ++ renderContexts ctxs ++ "</context>".toList⟩]

/-- The preamble messages of a Thread. -/
def contextPreamble (t : Thread) : List Message :=
  preambleOf t.contexts

/-- `TaskInput` (spec section 3): task text, optional Thread to reuse,
optional output schema, streaming flag. -/
structure TaskInput where
  content : Str
  thread : Option Thread
  outputSchema : Option OutputSchema
  stream : Bool

/-- The task message content: the task text wrapped in the task marker,
followed by the inline schema block when an output schema is supplied
(spec section 4.3 step 3; wire format from the in-repo tests). -/
def wrapTask (input : TaskInput) : Str :=
  "<task>".toList ++ input.content ++ "</task>".toList ++
  (match input.outputSchema with
   | some sch => "<output_schema>".toList ++ renderSchema sch ++ "</output_schema>".toList
   | none => [])

/-- The synthetic assistant message recording a turn's tool calls. -/
def renderToolCallsMsg (tcs : List (Str × Str)) : Str :=
  joinSep ("\n".toList) (tcs.map fun p => openTag p.1 ++ p.2 ++ closeTag p.1)

/-- The user message carrying a turn's tool results. -/
def renderToolResultsMsg (tcs : List (Str × Str)) : Str :=
  joinSep ("\n".toList) (tcs.map fun p =>
    "<tool_result>".toList ++ p.1 ++ "</tool_result>".toList)

/-- Modelled from the spec: the Agent turn loop (section 4.3 step 4;
source not among the provided files), over a scripted Provider.  Each
turn sends the context preamble plus the full Thread history, consumes
one scripted reply, and either terminates on a completion marker
(validating against the schema if one was supplied), dispatches the
parsed tool calls and loops, or fails with `NoCompletionFound` when the
reply holds no actionable output.  A Provider error yields an empty
accumulated turn text, which the loop surfaces as `NoCompletionFound`
(per the in-repo test `should handle model errors`, which expects the
`NoCompletionFound` message for a Provider that raises).  The fuel bounds
the turn count (spec: `TurnBudgetExceeded`). -/
def runTurns (tools : List Str) (schema : Option OutputSchema) :
    Nat → List ProviderEvent → Thread → List (List Message) → TaskOutcome
  | 0, _, thread, calls => ⟨.error .TurnBudgetExceeded, thread, calls⟩
  | fuel + 1, script, thread, calls =>
    let calls' := calls ++ [contextPreamble thread ++ thread.messages]
    match script with
    | [] => ⟨.error .NoCompletionFound, thread, calls'⟩
    | .err _ :: _ => ⟨.error .NoCompletionFound, thread, calls'⟩
    | .text resp :: rest =>
      match completionOf resp with
      | some inner =>
        let thread' := thread.appendMessage ⟨Role.assistant, inner⟩
        match schema with
        | none => ⟨.ok (.text inner), thread', calls'⟩
        | some sch =>
          match jsonParse inner with
          | some j =>
            if validateSchema sch j then ⟨.ok (.json j), thread', calls'⟩
            else ⟨.error .SchemaValidationFailed, thread', calls'⟩
          | none => ⟨.error .SchemaValidationFailed, thread', calls'⟩
      | none =>
        let tcs := extractToolCalls tools resp
        if tcs.isEmpty then ⟨.error .NoCompletionFound, thread, calls'⟩
        else
          let thread' := (thread.appendMessage ⟨Role.assistant, renderToolCallsMsg tcs⟩).appendMessage
            ⟨Role.user, renderToolResultsMsg tcs⟩
          runTurns tools schema fuel rest thread' calls'

/-- The implementation-defined maximum turn count bounding the loop. -/
def maxTurns : Nat := 50

/-- Modelled from the spec: `Agent.task` (section 4.3; source not among
the provided files).  `stream=true` with an output schema fails fast
before any Provider call; otherwise the supplied Thread is reused (or a
fresh one created), the wrapped task message is appended, and the turn
loop runs against the scripted Provider. -/
def runTask (tools : List Str) (script : List ProviderEvent) (input : TaskInput) : TaskOutcome :=
  if input.stream && input.outputSchema.isSome then
    ⟨.error .StreamingSchemaUnsupported, input.thread.getD Thread.empty, []⟩
  else
    let t0 := input.thread.getD Thread.empty
    let t1 := t0.appendMessage ⟨Role.user, wrapTask input⟩
    runTurns tools input.outputSchema maxTurns script t1 []

/-- A plain non-streaming, schema-less task input over a given Thread. -/
def plainTask (content : Str) (t : Thread) : TaskInput :=
  ⟨content, some t, none, false⟩

/-- Sequential plain tasks sharing one Thread: each job is (task text,
scripted Provider response); the Thread produced by each task is passed
to the next.  Returns the final Thread and all Provider calls in order. -/
def runTasks (tools : List Str) : List (Str × Str) → Thread → Thread × List (List Message)
  | [], t => (t, [])
  | (c, r) :: rest, t =>
    let out := runTask tools [ProviderEvent.text r] (plainTask c t)
    let next := runTasks tools rest out.thread
    (next.1, out.calls ++ next.2)

/-- The two messages a completion-only plain task appends to its Thread:
the wrapped task message and the final assistant message. -/
def taskContribution (c r : Str) : List Message :=
  [⟨Role.user, "<task>".toList ++ c ++ "</task>".toList⟩,
   ⟨Role.assistant, (completionOf r).getD []⟩]

/-- The Provider call each sequential task is expected to receive: the
context preamble, the full message history appended by all earlier tasks
in order, then its own task message. -/
def expectedCalls (ctxs : List (Str × Str)) :
    List (Str × Str) → List Message → List (List Message)
  | [], _ => []
  | (c, r) :: rest, msgs =>
    (preambleOf ctxs ++ msgs ++ [⟨Role.user, "<task>".toList ++ c ++ "</task>".toList⟩]) ::
      expectedCalls ctxs rest (msgs ++ taskContribution c r)

/-!
## Theorems

Supporting lemmas first, then one theorem per claim (with a witness for
each theorem that has a hypothesis, and a counterexample where a claim
fails).
-/

theorem splitOnChar_ne_nil (sep : Char) (s : Str) : splitOnChar sep s ≠ [] := by
  cases s with
  | nil => simp [splitOnChar]
  | cons c rest =>
    simp only [splitOnChar]
    cases splitOnChar sep rest with
    | nil => simp
    | cons w ws => by_cases h : c = sep <;> simp [h]

theorem joinSep_cons₂ (sep x y : Str) (ys : List Str) :
    joinSep sep (x :: y :: ys) = x ++ sep ++ joinSep sep (y :: ys) := rfl

theorem formatSectionName_eq (name : Str) :
    formatSectionName name = name.map (fun c => if c = '-' then ' ' else c.toUpper) := by
  unfold formatSectionName
  induction name with
  | nil => rfl
  | cons c rest ih =>
    obtain ⟨w, ws, hrest⟩ : ∃ w ws, splitOnChar '-' rest = w :: ws := by
      cases h : splitOnChar '-' rest with
      | nil => exact absurd h (splitOnChar_ne_nil '-' rest)
      | cons w ws => exact ⟨w, ws, rfl⟩
    rw [hrest] at ih
    by_cases hc : c = '-'
    · subst hc
      have h1 : splitOnChar '-' ('-' :: rest) = [] :: w :: ws := by
        simp [splitOnChar, hrest]
      rw [h1, List.map_cons, List.map_cons, joinSep_cons₂, ← List.map_cons, ih]
      simp
    · have h1 : splitOnChar '-' (c :: rest) = (c :: w) :: ws := by
        simp [splitOnChar, hrest, hc]
      rw [h1, List.map_cons]
      cases ws with
      | nil =>
        simp only [List.map_nil, List.map_cons] at ih ⊢
        simp only [joinSep] at ih ⊢
        simp [ih, hc]
      | cons z zs =>
        simp only [List.map_cons] at ih ⊢
        rw [joinSep_cons₂] at ih ⊢
        simp only [List.map_cons, hc, if_neg hc]
        rw [← ih]
        simp

/-- C8: `SystemPromptBuilder.build` returns the enabled sections sorted by
ascending order value, each rendered as its name with hyphens replaced by
spaces and words uppercased, followed by a blank line and the trimmed
section content, joined by the separator `\n\n====\n\n`; when no section
is enabled, it returns the empty string. -/
theorem build_spec (sections : List SystemPromptSection) :
    (sections.filter (·.enabled) = [] → build sections = []) ∧
    (sortByOrder (sections.filter (·.enabled))).Perm (sections.filter (·.enabled)) ∧
    List.Sorted secLe (sortByOrder (sections.filter (·.enabled))) ∧
    (sections.filter (·.enabled) ≠ [] →
      build sections =
        joinSep buildSeparator
          ((sortByOrder (sections.filter (·.enabled))).map (fun s =>
            (s.name.map (fun c => if c = '-' then ' ' else c.toUpper)) ++
              '\n' :: '\n' :: jsTrim s.content))) := by
  refine ⟨?_, List.perm_insertionSort secLe _, List.sorted_insertionSort secLe _, ?_⟩
  · intro h
    simp [build, sortByOrder, h]
  · intro h
    have hlen : (sortByOrder (sections.filter (·.enabled))).length ≠ 0 := by
      unfold sortByOrder
      rw [(List.perm_insertionSort secLe (sections.filter (·.enabled))).length_eq]
      simpa [List.length_eq_zero] using h
    unfold build
    rw [if_neg hlen]
    congr 1
    refine List.map_congr_left ?_
    intro s _
    rw [renderSection, formatSectionName_eq]
    simp [sectionGap, List.append_assoc]

/-- Witness for C8 at a concrete builder state with two enabled sections
(out of order) and one disabled section. -/
theorem build_spec_witness :
    (List.filter (·.enabled)
        [(⟨"tool-use".toList, " guide ".toList, 30, true⟩ : SystemPromptSection),
         ⟨"role".toList, "who\n".toList, 10, true⟩,
         ⟨"off".toList, "hidden".toList, 5, false⟩] ≠ []) ∧
    build [⟨"tool-use".toList, " guide ".toList, 30, true⟩,
      ⟨"role".toList, "who\n".toList, 10, true⟩,
      ⟨"off".toList, "hidden".toList, 5, false⟩] =
      joinSep buildSeparator
        (List.map
          (fun s => (s.name.map (fun c => if c = '-' then ' ' else c.toUpper)) ++
            '\n' :: '\n' :: jsTrim s.content)
          (sortByOrder (List.filter (·.enabled)
            [(⟨"tool-use".toList, " guide ".toList, 30, true⟩ : SystemPromptSection),
             ⟨"role".toList, "who\n".toList, 10, true⟩,
             ⟨"off".toList, "hidden".toList, 5, false⟩]))) :=
  ⟨by decide, (build_spec _).2.2.2 (by decide)⟩

theorem mapGet_mapSet_eq (l : List SystemPromptSection) (s : SystemPromptSection)
    (n : Str) (h : s.name = n) : mapGet (mapSet l s) n = some s := by
  induction l with
  | nil => simp [mapSet, mapGet, h]
  | cons x xs ih =>
    by_cases hx : x.name = s.name
    · simp [mapSet, hx, mapGet, h]
    · simp only [mapSet, if_neg hx, mapGet]
      rw [if_neg (fun hh => hx (hh.trans h.symm)), ih]

theorem mapGet_mapSet_ne (l : List SystemPromptSection) (s : SystemPromptSection)
    (n : Str) (h : s.name ≠ n) : mapGet (mapSet l s) n = mapGet l n := by
  induction l with
  | nil => simp [mapSet, mapGet, h]
  | cons x xs ih =>
    by_cases hx : x.name = s.name
    · simp only [mapSet, if_pos hx, mapGet]
      rw [if_neg h, if_neg (fun hh => h (hx.symm.trans hh))]
    · simp only [mapSet, if_neg hx, mapGet, ih]

theorem mapSet_mapSet_same (l : List SystemPromptSection) (s₁ s₂ : SystemPromptSection)
    (h : s₁.name = s₂.name) : mapSet (mapSet l s₁) s₂ = mapSet l s₂ := by
  induction l with
  | nil => simp [mapSet, h]
  | cons x xs ih =>
    by_cases hx : x.name = s₁.name
    · simp [mapSet, hx, h, hx.trans h]
    · have hx₂ : x.name ≠ s₂.name := fun hh => hx (hh.trans h.symm)
      simp [mapSet, hx, hx₂, ih]

theorem mapSet_eq_self (l : List SystemPromptSection) (s : SystemPromptSection)
    (h : mapGet l s.name = some s) : mapSet l s = l := by
  induction l with
  | nil => simp [mapGet] at h
  | cons x xs ih =>
    by_cases hx : x.name = s.name
    · simp only [mapGet, if_pos hx] at h
      injection h with h'
      simp [mapSet, hx, h']
    · simp only [mapGet, if_neg hx] at h
      simp [mapSet, hx, ih h]

theorem foldl_initStep_get_not_mem (disabled : List Str) (contents : Str → Str) (n : Str) :
    ∀ (names : List Str) (l₀ : List SystemPromptSection), n ∉ names →
      mapGet (names.foldl (initStep disabled contents) l₀) n = mapGet l₀ n := by
  intro names
  induction names with
  | nil => intro l₀ _; rfl
  | cons m ms ih =>
    intro l₀ hn
    rw [List.foldl_cons, ih _ (fun hh => hn (List.mem_cons_of_mem m hh))]
    unfold initStep
    split
    · rfl
    · exact mapGet_mapSet_ne _ _ _ (fun hh => hn (hh ▸ List.mem_cons_self m ms))

theorem foldl_initStep_get_mem (disabled : List Str) (contents : Str → Str) (n : Str)
    (hdis : n ∉ disabled) :
    ∀ (names : List Str) (l₀ : List SystemPromptSection), names.Nodup → n ∈ names →
      mapGet (names.foldl (initStep disabled contents) l₀) n =
        some ⟨n, contents n, getDefaultOrder n, true⟩ := by
  intro names
  induction names with
  | nil => intro l₀ _ hn; cases hn
  | cons m ms ih =>
    intro l₀ hnd hn
    rw [List.foldl_cons]
    rcases List.mem_cons.mp hn with h | h
    · subst h
      have hms : n ∉ ms := (List.nodup_cons.mp hnd).1
      rw [foldl_initStep_get_not_mem disabled contents n ms _ hms]
      unfold initStep
      rw [if_neg hdis]
      exact mapGet_mapSet_eq _ _ _ rfl
    · exact ih _ (List.nodup_cons.mp hnd).2 h

theorem foldl_customStep_get (disabled : List Str) (n : Str) :
    ∀ (customs : List SystemPromptSection) (l₀ : List SystemPromptSection),
      (∀ s ∈ customs, s.name ≠ n) →
      mapGet (customs.foldl (customStep disabled) l₀) n = mapGet l₀ n := by
  intro customs
  induction customs with
  | nil => intro l₀ _; rfl
  | cons c cs ih =>
    intro l₀ hc
    rw [List.foldl_cons, ih _ (fun s hs => hc s (List.mem_cons_of_mem c hs))]
    unfold customStep
    split
    · rfl
    · exact mapGet_mapSet_ne _ _ _ (hc c (List.mem_cons_self c cs))

theorem initSections_get_default (contents : Str → Str) (cfg : BuilderConfig) (name : Str)
    (h₁ : name ∈ defaultNames) (h₂ : name ∉ cfg.disabledSections)
    (h₃ : ∀ s ∈ cfg.customSections, s.name ≠ name) :
    mapGet (initSections contents cfg) name =
      some ⟨name, contents name, getDefaultOrder name, true⟩ := by
  have hmem : name ∈ sortedDefaultNames := by
    unfold sortedDefaultNames
    exact ((List.perm_insertionSort _ defaultNames).mem_iff).mpr h₁
  have hnd : sortedDefaultNames.Nodup := by
    unfold sortedDefaultNames
    exact ((List.perm_insertionSort _ defaultNames).nodup_iff).mpr (by decide)
  have hl₁ := foldl_initStep_get_mem cfg.disabledSections contents name h₂
    sortedDefaultNames [] hnd hmem
  have hl₂ := foldl_customStep_get cfg.disabledSections name cfg.customSections
    (sortedDefaultNames.foldl (initStep cfg.disabledSections contents) []) h₃
  unfold initSections
  split
  · rename_i hci
    by_cases hn : name = "custom-instructions".toList
    · subst hn
      exact mapGet_mapSet_eq _ _ _ rfl
    · rw [mapGet_mapSet_ne _ _ _ (fun hh => hn hh.symm), hl₂, hl₁]
  · rw [hl₂, hl₁]

/-- C9 (amended): for every default section name not listed in
`disabledSections` and not shadowed by a custom section of the same name,
`disableSection(name)` followed by `enableSection(name)` restores the
builder's sections exactly — in particular the section's default content,
default order and enabled flag — so `build()` after the round trip equals
`build()` before it; and `disableSection` on a name with no registered
section leaves the builder's sections unchanged. -/
theorem disable_enable_roundtrip (contents : Str → Str) (cfg : BuilderConfig) (name : Str)
    (h₁ : name ∈ defaultNames) (h₂ : name ∉ cfg.disabledSections)
    (h₃ : ∀ s ∈ cfg.customSections, s.name ≠ name) :
    enableSection contents name (disableSection name (initSections contents cfg)) =
        initSections contents cfg ∧
    mapGet (enableSection contents name (disableSection name (initSections contents cfg)))
        name = some ⟨name, contents name, getDefaultOrder name, true⟩ ∧
    build (enableSection contents name (disableSection name (initSections contents cfg))) =
        build (initSections contents cfg) ∧
    ∀ (l : List SystemPromptSection) (n : Str), mapGet l n = none → disableSection n l = l := by
  have key := initSections_get_default contents cfg name h₁ h₂ h₃
  have hdis : disableSection name (initSections contents cfg) =
      mapSet (initSections contents cfg)
        ⟨name, contents name, getDefaultOrder name, false⟩ := by
    unfold disableSection
    rw [key]
  have hround :
      enableSection contents name (disableSection name (initSections contents cfg)) =
        initSections contents cfg := by
    rw [hdis]
    unfold enableSection
    rw [if_pos h₁, mapSet_mapSet_same (initSections contents cfg)
      ⟨name, contents name, getDefaultOrder name, false⟩
      ⟨name, contents name, getDefaultOrder name, true⟩ rfl]
    exact mapSet_eq_self _ _ key
  refine ⟨hround, ?_, by rw [hround], ?_⟩
  · rw [hround]
    exact key
  · intro l n h
    unfold disableSection
    rw [h]

/-- Witness for C9 (amended) at a concrete configuration with no custom
sections and nothing disabled, for the default name `role`. -/
theorem disable_enable_roundtrip_witness :
    ("role".toList ∈ defaultNames) ∧
    enableSection (fun n => n) ("role".toList)
        (disableSection ("role".toList) (initSections (fun n => n) ⟨[], [], false⟩)) =
      initSections (fun n => n) ⟨[], [], false⟩ :=
  ⟨by decide,
    (disable_enable_roundtrip (fun n => n) ⟨[], [], false⟩ ("role".toList)
      (by decide) (by decide) (by intro s hs; cases hs)).1⟩

/-- C9 counterexample: with a custom section named `role` (content
`CUSTOM`, order `200`) shadowing the default `role` section,
`disableSection("role")` followed by `enableSection("role")` re-adds the
default content and order, so `build()` after the round trip differs from
`build()` before it even though `role` is a default section name absent
from `disabledSections`.  (Default section contents, which are produced
by modules outside the provided sources, are instantiated with the
section names themselves; the two builds differ in their leading section
regardless of those contents.) -/
theorem disable_enable_roundtrip_cex :
    ("role".toList ∈ defaultNames) ∧
    ("role".toList ∉ (([] : List Str))) ∧
    build (enableSection (fun n => n) ("role".toList) (disableSection ("role".toList)
        (initSections (fun n => n)
          ⟨[⟨"role".toList, "CUSTOM".toList, 200, true⟩], [], false⟩))) ≠
      build (initSections (fun n => n)
        ⟨[⟨"role".toList, "CUSTOM".toList, 200, true⟩], [], false⟩) :=
  ⟨by decide, by decide, by decide⟩

theorem runTask_nonstream (tools : List Str) (script : List ProviderEvent) (input : TaskInput)
    (h : input.stream = false) :
    runTask tools script input =
      runTurns tools input.outputSchema maxTurns script
        ((input.thread.getD Thread.empty).appendMessage ⟨Role.user, wrapTask input⟩) [] := by
  unfold runTask
  rw [h]
  simp

/-- C1: for every task input with `stream=false` whose model response is a
completion-only response (no tool-invocation markers), `task()` returns
content equal exactly to the text inside the completion marker, returns
it exactly once, and invokes the Model Provider exactly once. -/
theorem task_completion_only (tools : List Str) (input : TaskInput)
    (resp inner : Str) (rest : List ProviderEvent)
    (hstream : input.stream = false) (hschema : input.outputSchema = none)
    (hcomp : completionOf resp = some inner)
    (htools : extractToolCalls tools resp = []) :
    (runTask tools (ProviderEvent.text resp :: rest) input).result =
        Except.ok (TaskContent.text inner) ∧
    (runTask tools (ProviderEvent.text resp :: rest) input).calls.length = 1 := by
  rw [runTask_nonstream tools _ input hstream, hschema, show maxTurns = 49 + 1 from rfl]
  simp [runTurns, hcomp]

/-- Witness for C1 at the concrete response of the in-repo test
`should execute task successfully`. -/
theorem task_completion_only_witness :
    completionOf ("<attempt_completion>test response</attempt_completion>".toList) =
        some ("test response".toList) ∧
    (runTask ["mock_tool".toList]
        [ProviderEvent.text ("<attempt_completion>test response</attempt_completion>".toList)]
        ⟨"test task".toList, none, none, false⟩).result =
      Except.ok (TaskContent.text ("test response".toList)) ∧
    (runTask ["mock_tool".toList]
        [ProviderEvent.text ("<attempt_completion>test response</attempt_completion>".toList)]
        ⟨"test task".toList, none, none, false⟩).calls.length = 1 :=
  ⟨by decide,
    (task_completion_only ["mock_tool".toList] ⟨"test task".toList, none, none, false⟩
      ("<attempt_completion>test response</attempt_completion>".toList)
      ("test response".toList) [] rfl rfl (by decide) (by decide)).1,
    (task_completion_only ["mock_tool".toList] ⟨"test task".toList, none, none, false⟩
      ("<attempt_completion>test response</attempt_completion>".toList)
      ("test response".toList) [] rfl rfl (by decide) (by decide)).2⟩

/-- C3: for every task input with `stream=true` and a supplied output
schema, `task()` rejects with `StreamingSchemaUnsupported` before the
Model Provider is invoked (zero provider calls). -/
theorem streaming_schema_fails_fast (tools : List Str) (script : List ProviderEvent)
    (input : TaskInput) (sch : OutputSchema)
    (hstream : input.stream = true) (hschema : input.outputSchema = some sch) :
    (runTask tools script input).result = Except.error TaskError.StreamingSchemaUnsupported ∧
    (runTask tools script input).calls = [] := by
  unfold runTask
  rw [hstream, hschema]
  simp

/-- Witness for C3 at the concrete input of the in-repo test
`should throw error when trying to use output schema with streaming`. -/
theorem streaming_schema_fails_fast_witness :
    ((⟨"test task".toList, none, some ⟨[("result".toList, SchemaTy.sstr)]⟩, true⟩ :
        TaskInput).stream = true) ∧
    (runTask ["mock_tool".toList] []
        ⟨"test task".toList, none, some ⟨[("result".toList, SchemaTy.sstr)]⟩, true⟩).result =
      Except.error TaskError.StreamingSchemaUnsupported ∧
    (runTask ["mock_tool".toList] []
        ⟨"test task".toList, none, some ⟨[("result".toList, SchemaTy.sstr)]⟩, true⟩).calls = [] :=
  ⟨rfl,
    (streaming_schema_fails_fast ["mock_tool".toList] []
      ⟨"test task".toList, none, some ⟨[("result".toList, SchemaTy.sstr)]⟩, true⟩
      ⟨[("result".toList, SchemaTy.sstr)]⟩ rfl rfl).1,
    (streaming_schema_fails_fast ["mock_tool".toList] []
      ⟨"test task".toList, none, some ⟨[("result".toList, SchemaTy.sstr)]⟩, true⟩
      ⟨[("result".toList, SchemaTy.sstr)]⟩ rfl rfl).2⟩

/-- C4 counterexample: with the Provider raising `Model error` (the
input of the in-repo test `should handle model errors`), the task settles
with `NoCompletionFound` — the caller does not see the provider's error. -/
theorem provider_error_cex :
    (runTask ["mock_tool".toList] [ProviderEvent.err ("Model error".toList)]
        ⟨"test task".toList, none, none, false⟩).result =
      Except.error TaskError.NoCompletionFound ∧
    (Except.error TaskError.NoCompletionFound : Except TaskError TaskContent) ≠
      Except.error (TaskError.ProviderError ("Model error".toList)) :=
  ⟨by decide, by decide⟩

/-- C4 (amended): a Model Provider error does not propagate unchanged to
the caller; the turn yields no completion text and the task fails
terminally with `NoCompletionFound` (the behaviour pinned by the in-repo
test `should handle model errors`), after exactly one Provider call. -/
theorem provider_error_absorbed (tools : List Str) (input : TaskInput) (e : Str)
    (rest : List ProviderEvent)
    (hguard : ¬(input.stream = true ∧ input.outputSchema.isSome = true)) :
    (runTask tools (ProviderEvent.err e :: rest) input).result =
        Except.error TaskError.NoCompletionFound ∧
    (runTask tools (ProviderEvent.err e :: rest) input).calls.length = 1 := by
  have hcond : (input.stream && input.outputSchema.isSome) = false := by
    cases hs : input.stream with
    | false => simp
    | true =>
      cases ho : input.outputSchema.isSome with
      | false => simp [ho]
      | true => exact absurd ⟨hs, ho⟩ hguard
  unfold runTask
  rw [hcond]
  rw [show maxTurns = 49 + 1 from rfl]
  simp [runTurns]

/-- Witness for C4 (amended) at the input of the in-repo test
`should handle model errors`. -/
theorem provider_error_absorbed_witness :
    ¬((⟨"test task".toList, none, none, false⟩ : TaskInput).stream = true ∧
        (⟨"test task".toList, none, none, false⟩ : TaskInput).outputSchema.isSome = true) ∧
    (runTask ["mock_tool".toList] [ProviderEvent.err ("Model error".toList)]
        ⟨"test task".toList, none, none, false⟩).result =
      Except.error TaskError.NoCompletionFound ∧
    (runTask ["mock_tool".toList] [ProviderEvent.err ("Model error".toList)]
        ⟨"test task".toList, none, none, false⟩).calls.length = 1 :=
  ⟨by decide,
    (provider_error_absorbed ["mock_tool".toList] ⟨"test task".toList, none, none, false⟩
      ("Model error".toList) [] (by decide)).1,
    (provider_error_absorbed ["mock_tool".toList] ⟨"test task".toList, none, none, false⟩
      ("Model error".toList) [] (by decide)).2⟩

/-- C5: for every turn whose model response contains no completion marker
and no tool-invocation markers, `task()` fails terminally with
`NoCompletionFound`, whose user-visible message identifies the missing
completion marker (`attempt_completion`). -/
theorem no_actionable_output (tools : List Str) (input : TaskInput)
    (resp : Str) (rest : List ProviderEvent)
    (hstream : input.stream = false)
    (hcomp : completionOf resp = none)
    (htools : extractToolCalls tools resp = []) :
    (runTask tools (ProviderEvent.text resp :: rest) input).result =
        Except.error TaskError.NoCompletionFound ∧
    containsSub ("attempt_completion".toList) (errorMessage TaskError.NoCompletionFound) = true := by
  constructor
  · rw [runTask_nonstream tools _ input hstream, show maxTurns = 49 + 1 from rfl]
    simp [runTurns, hcomp, htools]
  · decide

/-- Witness for C5 at the plain markerless response of the spec's
concrete scenario. -/
theorem no_actionable_output_witness :
    completionOf ("just plain text with no markers".toList) = none ∧
    (runTask ["mock_tool".toList]
        [ProviderEvent.text ("just plain text with no markers".toList)]
        ⟨"test task".toList, none, none, false⟩).result =
      Except.error TaskError.NoCompletionFound :=
  ⟨by decide,
    (no_actionable_output ["mock_tool".toList] ⟨"test task".toList, none, none, false⟩
      ("just plain text with no markers".toList) [] rfl (by decide) (by decide)).1⟩

/-- C6: for every non-streaming task with a supplied output schema, if
the completion-marker payload parses as JSON conforming to the schema,
`task()` returns the parsed object equal to that JSON; if the payload
does not conform, `task()` rejects with `SchemaValidationFailed`; either
way the Provider is invoked exactly once (no automatic retry). -/
theorem schema_validation_spec (tools : List Str) (input : TaskInput) (sch : OutputSchema)
    (resp payload : Str) (rest : List ProviderEvent)
    (hstream : input.stream = false) (hschema : input.outputSchema = some sch)
    (hcomp : completionOf resp = some payload) :
    (∀ j, jsonParse payload = some j → validateSchema sch j = true →
        (runTask tools (ProviderEvent.text resp :: rest) input).result =
          Except.ok (TaskContent.json j)) ∧
    ((∀ j, jsonParse payload = some j → validateSchema sch j = false) →
        (runTask tools (ProviderEvent.text resp :: rest) input).result =
          Except.error TaskError.SchemaValidationFailed) ∧
    (runTask tools (ProviderEvent.text resp :: rest) input).calls.length = 1 := by
  rw [runTask_nonstream tools _ input hstream, hschema, show maxTurns = 49 + 1 from rfl]
  refine ⟨?_, ?_, ?_⟩
  · intro j hj hv
    simp [runTurns, hcomp, hj, hv]
  · intro hinvalid
    cases hj : jsonParse payload with
    | none => simp [runTurns, hcomp, hj]
    | some j => simp [runTurns, hcomp, hj, hinvalid j hj]
  · simp [runTurns, hcomp]
    split
    · split <;> simp
    · simp

/-- Witness for C6: the conforming payload of the in-repo test
`should handle task with output schema` for the schema with one string
field `foo`. -/
theorem schema_validation_spec_witness :
    completionOf
        ("<attempt_completion>\x7b\"foo\": \"bar\"\x7d</attempt_completion>".toList) =
      some ("\x7b\"foo\": \"bar\"\x7d".toList) ∧
    jsonParse ("\x7b\"foo\": \"bar\"\x7d".toList) =
      some [("foo".toList, JValue.jstr ("bar".toList))] ∧
    (runTask [] [ProviderEvent.text
        ("<attempt_completion>\x7b\"foo\": \"bar\"\x7d</attempt_completion>".toList)]
        ⟨"test task".toList, none, some ⟨[("foo".toList, SchemaTy.sstr)]⟩, false⟩).result =
      Except.ok (TaskContent.json [("foo".toList, JValue.jstr ("bar".toList))]) :=
  ⟨by decide, by decide,
    (schema_validation_spec [] ⟨"test task".toList, none,
        some ⟨[("foo".toList, SchemaTy.sstr)]⟩, false⟩
      ⟨[("foo".toList, SchemaTy.sstr)]⟩
      ("<attempt_completion>\x7b\"foo\": \"bar\"\x7d</attempt_completion>".toList)
      ("\x7b\"foo\": \"bar\"\x7d".toList) [] rfl rfl (by decide)).1
      [("foo".toList, JValue.jstr ("bar".toList))] (by decide) (by decide)⟩

theorem countOcc_eq_one (a : Str) : ∀ (l : List Str), l.Nodup → a ∈ l → countOcc a l = 1 := by
  intro l
  induction l with
  | nil => intro _ h; exact absurd h (List.not_mem_nil a)
  | cons x xs ih =>
    intro hnd hmem
    have hnd' := List.nodup_cons.mp hnd
    unfold countOcc
    rw [List.countP_cons]
    rcases List.mem_cons.mp hmem with h | h
    · subst h
      have hzero : xs.countP (fun b => decide (b = a)) = 0 :=
        List.countP_eq_zero.mpr (fun b hb => by
          simp only [decide_eq_true_eq]
          intro hba
          exact hnd'.1 (hba ▸ hb))
      simp [hzero]
    · have hxa : ¬(x = a) := fun hh => hnd'.1 (hh ▸ h)
      have hcount := ih hnd'.2 h
      unfold countOcc at hcount
      simp [hcount, hxa]

/-- C7: for every Agent, `initialize()` invoked any number of times (in
particular twice or more) runs each tool's optional setup hook exactly
once across the Agent's lifetime; every invocation after the first is a
no-op on the Agent state. -/
theorem init_idempotent (tools : List UnifiedTool) (n : Nat) (hn : 1 ≤ n)
    (hnd : (tools.map (·.name)).Nodup) :
    iterInitAgent tools n freshAgent = initAgent tools freshAgent ∧
    ∀ t ∈ tools, t.hasInitHook = true →
      countOcc t.name (iterInitAgent tools n freshAgent).initHookRuns = 1 := by
  have hloaded : ∀ (m : Nat) (st : AgentState), st.toolsLoaded = true →
      iterInitAgent tools m st = st := by
    intro m
    induction m with
    | zero => intro st _; rfl
    | succ k ih =>
      intro st hst
      show iterInitAgent tools k (initAgent tools st) = st
      rw [show initAgent tools st = st by unfold initAgent; rw [hst]; simp]
      exact ih st hst
  obtain ⟨m, rfl⟩ : ∃ m, n = m + 1 := ⟨n - 1, (Nat.succ_pred_eq_of_pos hn).symm⟩
  have hone : iterInitAgent tools (m + 1) freshAgent = initAgent tools freshAgent := by
    show iterInitAgent tools m (initAgent tools freshAgent) = initAgent tools freshAgent
    exact hloaded m _ (by unfold initAgent freshAgent; simp)
  refine ⟨hone, ?_⟩
  intro t ht hhook
  rw [hone]
  have hruns : (initAgent tools freshAgent).initHookRuns =
      (tools.filter (·.hasInitHook)).map (·.name) := by
    unfold initAgent freshAgent
    simp
  rw [hruns]
  have hsub : ((tools.filter (·.hasInitHook)).map (·.name)).Sublist (tools.map (·.name)) :=
    (List.filter_sublist tools).map (·.name)
  have hnd' : ((tools.filter (·.hasInitHook)).map (·.name)).Nodup := hnd.sublist hsub
  have hmem : t.name ∈ (tools.filter (·.hasInitHook)).map (·.name) :=
    List.mem_map_of_mem (·.name) (List.mem_filter.mpr ⟨ht, by simp [hhook]⟩)
  exact countOcc_eq_one t.name _ hnd' hmem

/-- Witness for C7: two `initialize()` calls on an Agent with one plain
tool and one tool with a setup hook (the configuration of the in-repo
test `should only initialize once`). -/
theorem init_idempotent_witness :
    (1 ≤ 2) ∧
    iterInitAgent [⟨"mock_tool".toList, false⟩, ⟨"mock_tool_init".toList, true⟩] 2 freshAgent =
      initAgent [⟨"mock_tool".toList, false⟩, ⟨"mock_tool_init".toList, true⟩] freshAgent ∧
    countOcc ("mock_tool_init".toList)
      (iterInitAgent [⟨"mock_tool".toList, false⟩, ⟨"mock_tool_init".toList, true⟩] 2
        freshAgent).initHookRuns = 1 :=
  ⟨by decide,
    (init_idempotent [⟨"mock_tool".toList, false⟩, ⟨"mock_tool_init".toList, true⟩] 2
      (by decide) (by decide)).1,
    (init_idempotent [⟨"mock_tool".toList, false⟩, ⟨"mock_tool_init".toList, true⟩] 2
      (by decide) (by decide)).2 ⟨"mock_tool_init".toList, true⟩ (by decide) rfl⟩

/-- C10: `MistralProvider.getModel` is total and never throws: it returns
the pair `(apiModelId, its info)` when `apiModelId` is a key of the known
Mistral model table, and otherwise (unknown id or no id) returns the
default Mistral model id with its info. -/
theorem mistral_getModel_total (opts : ModelProviderOptions) :
    (∀ m i, opts.apiModelId = some m → mistralModels.lookup m = some i →
        mistralGetModel opts = (m, i)) ∧
    (∀ m, opts.apiModelId = some m → mistralModels.lookup m = none →
        mistralGetModel opts = (mistralDefaultModelId, mistralDefaultInfo)) ∧
    (opts.apiModelId = none →
        mistralGetModel opts = (mistralDefaultModelId, mistralDefaultInfo)) := by
  refine ⟨?_, ?_, ?_⟩
  · intro m i hm hl
    have hne : m ≠ "" := by
      intro h
      subst h
      rw [show (mistralModels.lookup "" : Option ModelInfo) = none from by decide] at hl
      exact Option.noConfusion hl
    simp only [mistralGetModel, hm]
    rw [if_pos ⟨hne, by rw [hl]; rfl⟩, hl]
    rfl
  · intro m hm hl
    simp only [mistralGetModel, hm]
    rw [if_neg (fun hc => by rw [hl] at hc; simp at hc)]
  · intro h
    simp only [mistralGetModel, h]

/-- Witness for C10 at a known non-default model id. -/
theorem mistral_getModel_total_witness :
    (⟨some ("codestral-2501")⟩ : ModelProviderOptions).apiModelId = some ("codestral-2501") ∧
    mistralGetModel ⟨some ("codestral-2501")⟩ =
      ("codestral-2501", (⟨256000, 256000, false⟩ : ModelInfo)) :=
  ⟨rfl,
    (mistral_getModel_total ⟨some ("codestral-2501")⟩).1 ("codestral-2501")
      ⟨256000, 256000, false⟩ rfl (by decide)⟩

theorem runTask_plain_completion (tools : List Str) (c r : Str) (t : Thread) (inner : Str)
    (hc : completionOf r = some inner) :
    runTask tools [ProviderEvent.text r] (plainTask c t) =
      ⟨Except.ok (TaskContent.text inner),
       ⟨t.messages ++ taskContribution c r, t.contexts⟩,
       [preambleOf t.contexts ++ t.messages ++
         [⟨Role.user, "<task>".toList ++ c ++ "</task>".toList⟩]]⟩ := by
  rw [runTask_nonstream tools _ _ rfl, show maxTurns = 49 + 1 from rfl]
  simp [runTurns, hc, plainTask, wrapTask, Thread.appendMessage, contextPreamble,
    taskContribution, preambleOf]

/-- C2: for every Thread reused across N sequential `task()` calls (each
a plain completion-only task), the Thread's final message sequence is the
original one followed by each task's own contribution in order — so its
final message count is the sum of each task's contribution, with no
cross-task loss or duplication — the context store is unchanged, and the
Provider call of each later task receives the full message history
appended by all earlier tasks in order, followed by its own task
message. -/
theorem thread_reuse_spec (tools : List Str) :
    ∀ (jobs : List (Str × Str)) (t : Thread),
      (∀ p ∈ jobs, (completionOf p.2).isSome = true) →
      (runTasks tools jobs t).1.messages =
          t.messages ++ (jobs.map (fun p => taskContribution p.1 p.2)).join ∧
      (runTasks tools jobs t).1.contexts = t.contexts ∧
      (runTasks tools jobs t).1.messages.length =
          t.messages.length + (jobs.map (fun p => (taskContribution p.1 p.2).length)).sum ∧
      (runTasks tools jobs t).2 = expectedCalls t.contexts jobs t.messages := by
  intro jobs
  induction jobs with
  | nil =>
    intro t _
    exact ⟨by simp [runTasks], rfl, by simp [runTasks], rfl⟩
  | cons p ps ih =>
    intro t hall
    obtain ⟨c, r⟩ := p
    obtain ⟨inner, hinner⟩ : ∃ i, completionOf r = some i :=
      Option.isSome_iff_exists.mp (hall (c, r) (List.mem_cons_self _ _))
    have hstep := runTask_plain_completion tools c r t inner hinner
    have hrest := ih ⟨t.messages ++ taskContribution c r, t.contexts⟩
      (fun q hq => hall q (List.mem_cons_of_mem _ hq))
    simp only [runTasks]
    rw [hstep]
    refine ⟨?_, hrest.2.1, ?_, ?_⟩
    · rw [hrest.1]
      simp [List.append_assoc]
    · rw [hrest.2.2.1]
      simp [List.length_append, Nat.add_assoc]
    · rw [hrest.2.2.2]
      simp [expectedCalls]

/-- Witness for C2: two sequential tasks over one fresh Thread (the
scenario of the in-repo test
`should allow reusing a thread across multiple tasks`). -/
theorem thread_reuse_spec_witness :
    (∀ p ∈ [(("test task".toList : Str),
              ("<attempt_completion>response 1</attempt_completion>".toList : Str)),
            (("test task".toList : Str),
              ("<attempt_completion>response 2</attempt_completion>".toList : Str))],
        (completionOf p.2).isSome = true) ∧
    (runTasks [] [(("test task".toList : Str),
        ("<attempt_completion>response 1</attempt_completion>".toList : Str)),
      (("test task".toList : Str),
        ("<attempt_completion>response 2</attempt_completion>".toList : Str))]
      Thread.empty).1.messages.length =
      Thread.empty.messages.length +
        (([(("test task".toList : Str),
            ("<attempt_completion>response 1</attempt_completion>".toList : Str)),
          (("test task".toList : Str),
            ("<attempt_completion>response 2</attempt_completion>".toList : Str))]).map
          (fun p => (taskContribution p.1 p.2).length)).sum ∧
    (runTasks [] [(("test task".toList : Str),
        ("<attempt_completion>response 1</attempt_completion>".toList : Str)),
      (("test task".toList : Str),
        ("<attempt_completion>response 2</attempt_completion>".toList : Str))]
      Thread.empty).2 =
      expectedCalls Thread.empty.contexts
        [(("test task".toList : Str),
          ("<attempt_completion>response 1</attempt_completion>".toList : Str)),
        (("test task".toList : Str),
          ("<attempt_completion>response 2</attempt_completion>".toList : Str))]
        Thread.empty.messages :=
  ⟨by decide,
    (thread_reuse_spec []
      [(("test task".toList : Str),
        ("<attempt_completion>response 1</attempt_completion>".toList : Str)),
      (("test task".toList : Str),
        ("<attempt_completion>response 2</attempt_completion>".toList : Str))]
      Thread.empty (by decide)).2.2.1,
    (thread_reuse_spec []
      [(("test task".toList : Str),
        ("<attempt_completion>response 1</attempt_completion>".toList : Str)),
      (("test task".toList : Str),
        ("<attempt_completion>response 2</attempt_completion>".toList : Str))]
      Thread.empty (by decide)).2.2.2⟩
